import Mathlib

/-!
Verification development for the Qveris editor-integration extension.

The definitions below are a shallow embedding of the TypeScript sources:
`src/utils.ts` (key masking, query classification, MCP config paths and
writer), `src/baseViewProvider.ts` (login, API key resolution, logout) and
`src/toolSearchViewProvider.ts` (search dispatch and error classification).
JavaScript objects are modelled as insertion-ordered association lists,
JSON documents as an inductive `Json` type, strings as their character
lists where character-level behaviour matters, and network/filesystem
effects as explicit environment records and state-passing functions.
-/

namespace Qveris

/-! ### Association lists: the model of JavaScript object fields.

JavaScript objects are insertion-ordered maps without duplicate keys:
property read finds the (first) matching key, property write replaces the
value in place keeping its position, or appends a new key at the end, and
`delete` removes the key.  `JSON.stringify` prints fields in this stored
order, so list equality models serialized-file equality. -/

def assocLookup {α : Type} : List (String × α) → String → Option α
  | [], _ => none
  | (k', v) :: rest, k => if k = k' then some v else assocLookup rest k

def assocSet {α : Type} : List (String × α) → String → α → List (String × α)
  | [], k, v => [(k, v)]
  | (k', v') :: rest, k, v =>
    if k = k' then (k', v) :: rest else (k', v') :: assocSet rest k v

def assocDelete {α : Type} : List (String × α) → String → List (String × α)
  | [], _ => []
  | (k', v') :: rest, k =>
    if k = k' then assocDelete rest k else (k', v') :: assocDelete rest k

/-! ### Character-level string utilities shared by the embedded functions.

`jsTrim` models `String.prototype.trim`: it strips the full ECMAScript
whitespace set — tab, line feed, vertical tab, form feed, carriage
return, space, no-break space, the Unicode space separators (U+1680,
U+2000 to U+200A, U+202F, U+205F, U+3000), the line and paragraph
separators (U+2028, U+2029) and the byte order mark; `splitOnChar` models `String.prototype.split` with a
one-character separator; `strIncludes` models `String.prototype.includes`.
All are structural recursions over character lists so that closed
instances evaluate inside the kernel. -/

def isJsWhitespaceChar (c : Char) : Bool :=
  c = ' ' || c = '\t' || c = '\n' || c = '\r' || c = '\x0b' || c = '\x0c' ||
  c = '\u00A0' || c = '\u1680' ||
  (0x2000 ≤ c.toNat && c.toNat ≤ 0x200A) ||
  c = '\u2028' || c = '\u2029' || c = '\u202F' || c = '\u205F' ||
  c = '\u3000' || c = '\uFEFF'

def trimChars (l : List Char) : List Char :=
  ((l.dropWhile isJsWhitespaceChar).reverse.dropWhile isJsWhitespaceChar).reverse

def jsTrim (s : String) : String :=
  String.mk (trimChars s.toList)

def splitOnChar (sep : Char) : List Char → List (List Char)
  | [] => [[]]
  | c :: rest =>
    let r := splitOnChar sep rest
    if c = sep then [] :: r
    else
      match r with
      | [] => [[c]]
      | part :: parts => (c :: part) :: parts

def charsStartWith (pat s : List Char) : Bool :=
  match pat, s with
  | [], _ => true
  | _ :: _, [] => false
  | p :: ps, c :: cs => p = c && charsStartWith ps cs

def charsContain (pat s : List Char) : Bool :=
  match s with
  | [] => pat.isEmpty
  | _ :: rest => charsStartWith pat s || charsContain pat rest

def strIncludes (s pat : String) : Bool :=
  charsContain pat.toList s.toList

/-- Model of JavaScript string truthiness applied to an optional string
field: a missing field and the empty string are falsy, any other string is
truthy (and is the value the `||` chain keeps). -/
def strTruthy (s : Option String) : Option String :=
  match s with
  | some s => if s = "" then none else some s
  | none => none

/-! ### JSON documents.

`Json` models a parsed JSON document (`JSON.parse` output): objects keep
their fields as insertion-ordered association lists, which is also the
order `JSON.stringify` serializes, so `Json` equality models equality of
the re-serialized file contents. -/

inductive Json : Type where
  | null : Json
  | bool : Bool → Json
  | num : Int → Json
  | str : String → Json
  | arr : List Json → Json
  | obj : List (String × Json) → Json

/-- JavaScript truthiness of a JSON value: `null`, `false`, `0` and `""`
are falsy; every other value (including any object or array) is truthy. -/
def Json.truthy : Json → Bool
  | .null => false
  | .bool b => b
  | .num n => n != 0
  | .str s => s != ""
  | .arr _ => true
  | .obj _ => true

/-- `v || d` on JSON values: keeps `v` when truthy, else the default. -/
def jsOr (v d : Json) : Json :=
  if v.truthy then v else d

/-- Property read `o.k || d` on a (non-null) value: objects look the key
up and apply `||`; reading a named property of any other value yields
`undefined`, so the default is taken.  (The embedded code never reads the
string or array intrinsics such as `length`.) -/
def propOr (o : Json) (k : String) (d : Json) : Json :=
  match o with
  | .obj f =>
    match assocLookup f k with
    | some v => jsOr v d
    | none => d
  | _ => d

/-- Fields contributed by an object-literal spread `{...v}`: an object
spreads its own fields, a string spreads to indexed one-character
entries, an array spreads to indexed element entries, and every other
primitive contributes nothing. -/
def spreadPairs : Json → List (String × Json)
  | .obj f => f
  | .str s => (s.toList.enum).map (fun p => (toString p.1, Json.str (String.mk [p.2])))
  | .arr xs => (xs.enum).map (fun p => (toString p.1, p.2))
  | _ => []

/-! ### `src/utils.ts` -/

/-- `maskKey` from `src/utils.ts`: empty keys display as the empty string,
keys of length at most 8 as the fixed four-bullet mask, longer keys as the
first four characters, the mask, then the last four characters
(`slice(0, 4)` and `slice(-4)`). -/
def maskKey (key : String) : String :=
  if key = "" then ""
  else if key.length ≤ 8 then "••••"
  else String.mk (key.toList.take 4) ++ "••••" ++
    String.mk (key.toList.drop (key.length - 4))

/-- `isToolId` from `src/utils.ts`: a blank query is not a tool id; the
trimmed query must not contain a space character (the `includes` check),
and its split on the dot must have at least four parts, each non-empty with a
non-empty trim (`part && part.trim().length > 0`). -/
def isToolId (query : String) : Bool :=
  if query = "" || jsTrim query = "" then false
  else if (trimChars query.toList).contains ' ' then false
  else
    decide (4 ≤ (splitOnChar '.' (trimChars query.toList)).length) &&
      (splitOnChar '.' (trimChars query.toList)).all
        (fun p => !p.isEmpty && !(trimChars p).isEmpty)

/-- `secretKeyName` from `src/utils.ts`: namespaces a secret-store slot
with the host application discriminator. -/
def secretKeyName (isCursor : Bool) (base : String) : String :=
  base ++ "." ++ (if isCursor then "cursor" else "vscode")

/-- `globalStateKey` from `src/utils.ts`: namespaces a plain-state slot
with the host application discriminator. -/
def globalStateKey (isCursor : Bool) (base : String) : String :=
  base ++ "." ++ (if isCursor then "cursor" else "vscode")

/-- `path.join` for plain segments. -/
def joinPath (a b : String) : String := a ++ "/" ++ b

def homeMcpPath (home : String) : String :=
  joinPath (joinPath home ".cursor") "mcp.json"

def workspaceMcpPath (w : String) : String :=
  joinPath (joinPath w ".vscode") "mcp.json"

/-- `getMcpConfigPaths` from `src/utils.ts`: inside Cursor the single
user-home path; otherwise the single workspace path when a workspace
folder is open, falling back to the user-home path when none is. -/
def getMcpConfigPaths (isCursor : Bool) (home : String) (workspace : Option String) :
    List String :=
  if isCursor then [homeMcpPath home]
  else
    match workspace with
    | some w => [workspaceMcpPath w]
    | none => [homeMcpPath home]

/-- The default `args` value (the single-element sdk package list) of the
qveris MCP entry. -/
def mcpDefaultArgs : Json := .arr [.str "@qverisai/sdk"]

/-- The rebuilt `qveris` server entry of `writeMcpConfigFile`:
`command`/`args` are kept when truthy and defaulted otherwise, and the
`env` object is the spread of the existing `env` with `QVERIS_API_KEY`
overwritten. -/
def newQverisEntry (existing : Json) (apiKey : String) : Json :=
  let existingEnv := propOr existing "env" (.obj [])
  .obj [("command", propOr existing "command" (.str "npx")),
        ("args", propOr existing "args" mcpDefaultArgs),
        ("env", .obj (assocSet (spreadPairs existingEnv) "QVERIS_API_KEY" (.str apiKey)))]

/-- Document transformation of `writeMcpConfigFile` on an object document:
`mcpServers` is reset to `{}` unless it already is an object
(object-typed and truthy under the `typeof` test, which keeps arrays as
well), the
`qveris` entry is rebuilt from the existing entry (`|| {}`), and the
result is stored back.  When `mcpServers` is an array the `qveris`
assignment only creates an expando property that `JSON.stringify` drops,
so the serialized fields are unchanged. -/
def writeMcpObj (fields : List (String × Json)) (apiKey : String) :
    List (String × Json) :=
  let ms0 := (assocLookup fields "mcpServers").getD .null
  match ms0 with
  | .arr _ => fields
  | .obj msf =>
    let existing := jsOr ((assocLookup msf "qveris").getD .null) (.obj [])
    assocSet fields "mcpServers"
      (.obj (assocSet msf "qveris" (newQverisEntry existing apiKey)))
  | _ =>
    assocSet fields "mcpServers"
      (.obj (assocSet [] "qveris" (newQverisEntry (.obj []) apiKey)))

/-- `writeMcpConfigFile` from `src/utils.ts` as a transformation of the
parsed document.  An array document keeps only its elements after
`JSON.stringify` (the added properties are expandos); `null` and the
primitive documents make the property accesses and assignments throw a
`TypeError`, so no write happens. -/
def writeMcpConfigDoc (data : Json) (apiKey : String) : Except Unit Json :=
  match data with
  | .obj fields => .ok (.obj (writeMcpObj fields apiKey))
  | .arr xs => .ok (.arr xs)
  | _ => .error ()

/-- Effect of one `writeMcpConfigFile` call on the stored file content:
`none` models a missing or unparsable file (read into `{}`); when the
transformation throws, the file is left as it was. -/
def mcpFileAfter (content : Option Json) (apiKey : String) : Option Json :=
  match writeMcpConfigDoc (content.getD (.obj [])) apiKey with
  | .ok j => some j
  | .error _ => content

/-! ### `src/baseViewProvider.ts`

The remote service is modelled as a record of the responses the five
network calls would produce: `.error ()` models a call whose transport
throws (network failure), `.ok` a parsed JSON body, whose fields are
modelled at exactly the paths the code reads (`Option` marks a possibly
absent field; an absent object on the path collapses to `none`). -/

structure LoginRespData where
  status : Option String
  message : Option String
  token : Option String
  dataAccessToken : Option String
deriving DecidableEq

structure UserinfoData where
  dataEmail : Option String
deriving DecidableEq

structure ApiKeyRec where
  name : String
deriving DecidableEq

structure ListKeysData where
  status : Option String
  /-- `data.api_keys` when present and array-shaped (`Array.isArray`);
  `none` models the field being absent or not an array. -/
  apiKeys : Option (List ApiKeyRec)
deriving DecidableEq

structure FullKeyData where
  status : Option String
  apiKey : Option String
deriving DecidableEq

structure CreateKeyData where
  status : Option String
  message : Option String
  apiKey : Option String
deriving DecidableEq

structure RemoteEnv where
  loginResp : Except Unit LoginRespData
  userinfoResp : Except Unit UserinfoData
  listResp : Except Unit ListKeysData
  fullKeyResp : Except Unit FullKeyData
  createResp : Except Unit CreateKeyData
  /-- the configured `qverisAi.apiKeyName` with its `"vscode"` default
  already applied by the `||` fallback -/
  apiKeyName : String
  /-- `Date.now()` at the creation step, in epoch milliseconds -/
  nowMillis : Nat

/-- The name `obtainApiKey` gives a freshly created key:
`` `${requestedName}-${Date.now()}` ``. -/
def createKeyName (env : RemoteEnv) : String :=
  env.apiKeyName ++ "-" ++ toString env.nowMillis

/-- The creation step of `obtainApiKey`: POST `api-keys/create`; a
transport failure propagates, a response without success status or
without a truthy `data.api_key` is thrown as an error. -/
def createFreshKey (env : RemoteEnv) : Except Unit String :=
  match env.createResp with
  | .error _ => .error ()
  | .ok c =>
    match (if c.status = some "success" then strTruthy c.apiKey else none) with
    | some k => .ok k
    | none => .error ()

/-- `obtainApiKey` from `src/baseViewProvider.ts`: try listing existing
keys (any transport failure, non-success envelope, non-array or empty
list falls through), then fetching the first listed key in full (any
transport failure or missing `data.api_key` falls through), and finally
create a fresh key. -/
def obtainApiKey (env : RemoteEnv) : Except Unit String :=
  match env.listResp with
  | .error _ => createFreshKey env
  | .ok l =>
    match (if l.status = some "success" then l.apiKeys else none) with
    | some keys =>
      if keys.isEmpty then createFreshKey env
      else
        match env.fullKeyResp with
        | .error _ => createFreshKey env
        | .ok fk =>
          match (if fk.status = some "success" then strTruthy fk.apiKey else none) with
          | some k => .ok k
          | none => createFreshKey env
    | none => createFreshKey env

structure LoginResult where
  token : String
  email : String
  apiKey : String
deriving DecidableEq

/-- `performLogin` from `src/baseViewProvider.ts`: POST the credentials,
require a success envelope, extract the bearer token from `token` or
`data.access_token` (throwing when both are falsy), GET the profile,
resolve the display email (`data?.data?.email || email`), and delegate to
`obtainApiKey`.  Every thrown step aborts the whole chain. -/
def performLogin (env : RemoteEnv) (email : String) : Except Unit LoginResult :=
  match env.loginResp with
  | .error _ => .error ()
  | .ok lr =>
    if lr.status = some "success" then
      match (strTruthy lr.token).orElse (fun _ => strTruthy lr.dataAccessToken) with
      | none => .error ()
      | some token =>
        match env.userinfoResp with
        | .error _ => .error ()
        | .ok ui =>
          let userEmail := (strTruthy ui.dataEmail).getD email
          match obtainApiKey env with
          | .error _ => .error ()
          | .ok apiKey => .ok ⟨token, userEmail, apiKey⟩
    else .error ()

/-- The persistent state an extension instance can touch: the secret
store, the plain key-value state store (values are JSON-like, e.g. the
`selectedTool` object), and the parsed contents of the on-disk MCP config
files (`none` marks a missing or unparsable file). -/
structure ExtState where
  secrets : List (String × String)
  globalState : List (String × Json)
  mcpFiles : List (String × Option Json)

/-- `ensureMcpConfigWithApiKey` from `src/utils.ts` restricted to its
filesystem effect: an empty key is a no-op; otherwise every target path
gets `writeMcpConfigFile` applied to its current content, per-path
failures leaving that file untouched (they are only reported). -/
def ensureMcpConfigWithApiKey (isCursor : Bool) (home : String)
    (workspace : Option String) (apiKey : String) (st : ExtState) : ExtState :=
  if apiKey = "" then st
  else
    { st with
      mcpFiles := (getMcpConfigPaths isCursor home workspace).foldl
        (fun files p =>
          assocSet files p (mcpFileAfter ((assocLookup files p).join) apiKey))
        st.mcpFiles }

/-- `handleLogin` from `src/baseViewProvider.ts`: blank email or password
fails fast with a message; a throwing `performLogin` is caught and only
reported; on success the three secret slots and the plain email slot are
stored and the MCP config reconciled. -/
def handleLogin (isCursor : Bool) (env : RemoteEnv) (home : String)
    (workspace : Option String) (st : ExtState) (email password : String) : ExtState :=
  if email = "" || password = "" then st
  else
    match performLogin env email with
    | .error _ => st
    | .ok r =>
      let st1 := { st with
        secrets :=
          assocSet
            (assocSet
              (assocSet st.secrets (secretKeyName isCursor "qverisApiKey") r.apiKey)
              (secretKeyName isCursor "qverisAccessToken") r.token)
            (secretKeyName isCursor "qverisEmail") r.email }
      let st2 := { st1 with
        globalState :=
          assocSet st1.globalState (globalStateKey isCursor "qverisEmail")
            (.str r.email) }
      ensureMcpConfigWithApiKey isCursor home workspace r.apiKey st2

/-- `handleLogout` from `src/baseViewProvider.ts`: deletes the three
namespaced secret slots and clears the namespaced plain email slot
(`update(key, undefined)` removes the entry); nothing else is touched. -/
def handleLogout (isCursor : Bool) (st : ExtState) : ExtState :=
  { st with
    secrets :=
      assocDelete
        (assocDelete
          (assocDelete st.secrets (secretKeyName isCursor "qverisApiKey"))
          (secretKeyName isCursor "qverisAccessToken"))
        (secretKeyName isCursor "qverisEmail"),
    globalState :=
      assocDelete st.globalState (globalStateKey isCursor "qverisEmail") }

/-! ### `src/toolSearchViewProvider.ts` -/

/-- Endpoint and request body built by `handleSearch` for a non-blank
query: the trimmed query is classified by `isToolId`; a tool id goes to
`/api/v1/tools/by-ids` with a single-element `tool_ids` list and the
session id; free text goes to `/api/v1/search` with the query, a limit of
10, the freshly generated search id and the session id. -/
def buildSearchRequest (baseUrl query sessionId freshSearchId : String) :
    String × Json :=
  let trimmed := jsTrim query
  if isToolId trimmed then
    (baseUrl ++ "/api/v1/tools/by-ids",
     .obj [("tool_ids", .arr [.str trimmed]), ("session_id", .str sessionId)])
  else
    (baseUrl ++ "/api/v1/search",
     .obj [("query", .str trimmed), ("limit", .num 10),
           ("search_id", .str freshSearchId), ("session_id", .str sessionId)])

/-- The error shape `handleSearch` inspects in its catch block: an
optional response (with HTTP status and the conventional message fields
of its body), whether a request object is present (sent but unanswered),
the transport error code, and the error message. -/
structure AxiosErr where
  response : Option (Nat × Option String × Option String × Option String × Option String)
  request : Bool
  code : Option String
  message : Option String

def respStatus (r : Nat × Option String × Option String × Option String × Option String) :
    Nat := r.1

/-- Message extracted from a response body:
`message || error || data.message || detail ||` the generic status text. -/
def respBodyMessage
    (r : Nat × Option String × Option String × Option String × Option String) : String :=
  ((((strTruthy r.2.1).orElse (fun _ => strTruthy r.2.2.1)).orElse
      (fun _ => strTruthy r.2.2.2.1)).orElse
      (fun _ => strTruthy r.2.2.2.2)).getD
    ("Request failed with status " ++ toString r.1)

/-- The catch block of `handleSearch`: with a response, the body message
is overridden for 401, 403, 404 and 5xx; without a response, a sent
request means a network error; otherwise `ECONNABORTED` or a message
containing `"timeout"` means a timeout; otherwise a truthy message is
shown as is, and `"Search failed"` is the final fallback. -/
def classifySearchError (e : AxiosErr) : String :=
  match e.response with
  | some r =>
    if respStatus r = 401 then "Authentication failed. Please sign in again."
    else if respStatus r = 403 then "Access denied. Please check your permissions."
    else if respStatus r = 404 then
      "Search endpoint not found. Please check the backend URL configuration."
    else if 500 ≤ respStatus r then "Server error. Please try again later."
    else respBodyMessage r
  | none =>
    if e.request then "Network error. Please check your internet connection."
    else if e.code = some "ECONNABORTED" ||
        (match e.message with
         | some m => strIncludes m "timeout"
         | none => false) then
      "Request timeout. Please try again."
    else
      match strTruthy e.message with
      | some m => m
      | none => "Search failed"

/-- Field lookup on a JSON value: a present object field, `none` otherwise. -/
def jsonField (j : Json) (k : String) : Option Json :=
  match j with
  | .obj f => assocLookup f k
  | _ => none

/-- The fall-through condition of the API key resolution chain: listing
keys failed, or returned a non-success envelope, a non-array or an empty
list, or the full-key fetch failed or carried no truthy `api_key`. -/
def fallbackCondition (env : RemoteEnv) : Bool :=
  match env.listResp with
  | .error _ => true
  | .ok l =>
    match (if l.status = some "success" then l.apiKeys else none) with
    | some keys =>
      if keys.isEmpty then true
      else
        match env.fullKeyResp with
        | .error _ => true
        | .ok fk =>
          !(decide (fk.status = some "success") && (strTruthy fk.apiKey).isSome)
    | none => true

/-! ### Concrete fixtures used by witness theorems. -/

/-- A remote environment whose login call fails at the transport level. -/
def envFailW : RemoteEnv :=
  ⟨.error (), .error (), .error (), .error (), .error (), "vscode", 0⟩

/-- A remote environment where key listing fails but creation succeeds. -/
def envListFailsW : RemoteEnv :=
  ⟨.ok ⟨some "success", none, some "T", none⟩, .ok ⟨some "a@b.com"⟩,
   .error (), .error (), .ok ⟨some "success", none, some "K-created"⟩,
   "vscode", 1700000000000⟩

/-- A starting extension state with one unrelated secret and state entry. -/
def stW : ExtState :=
  ⟨[("existing.slot", "value")], [("sessionId.vscode", .str "sess")], []⟩

/-- An error carrying an HTTP 401 response. -/
def claim8WitnessErr : AxiosErr :=
  ⟨some (401, none, none, none, none), false, none, none⟩

/-- An aborted-connection error without response or request. -/
def claim8WitnessTimeout : AxiosErr :=
  ⟨none, false, some "ECONNABORTED", none⟩

/-- A populated `qveris` entry with a truthy command and one env var. -/
def qverisW : List (String × Json) :=
  [("command", .str "mycmd"), ("env", .obj [("FOO", .str "bar")])]

/-- A server map holding an unrelated entry next to the qveris entry. -/
def mcpServersW : List (String × Json) :=
  [("other", .obj [("command", .str "other-cmd")]), ("qveris", .obj qverisW)]

/-- An MCP document with an unrelated top-level key and the map above. -/
def mcpFieldsW : List (String × Json) :=
  [("keep", .str "x"), ("mcpServers", .obj mcpServersW)]

/-! ### Library lemmas about the association-list operations. -/
theorem assocLookup_set_self {α : Type} (l : List (String × α)) (k : String) (v : α) :
    assocLookup (assocSet l k v) k = some v := by
  induction l with
  | nil => simp [assocSet, assocLookup]
  | cons hd tl ih =>
    obtain ⟨k', v'⟩ := hd
    by_cases h : k = k' <;> simp [assocSet, assocLookup, h, ih]

theorem assocLookup_set_ne {α : Type} (l : List (String × α)) (k k' : String) (v : α)
    (hne : k ≠ k') : assocLookup (assocSet l k' v) k = assocLookup l k := by
  induction l with
  | nil => simp [assocSet, assocLookup, hne]
  | cons hd tl ih =>
    obtain ⟨k₀, v₀⟩ := hd
    by_cases h : k' = k₀
    · subst h
      simp [assocSet, assocLookup, hne]
    · by_cases h₂ : k = k₀ <;> simp [assocSet, assocLookup, h, h₂, ih]

theorem assocSet_set_same {α : Type} (l : List (String × α)) (k : String) (v : α) :
    assocSet (assocSet l k v) k v = assocSet l k v := by
  induction l with
  | nil => simp [assocSet]
  | cons hd tl ih =>
    obtain ⟨k₀, v₀⟩ := hd
    by_cases h : k = k₀ <;> simp [assocSet, h, ih]

theorem assocLookup_delete {α : Type} (l : List (String × α)) (k k' : String) :
    assocLookup (assocDelete l k') k =
      if k = k' then none else assocLookup l k := by
  induction l with
  | nil => simp [assocDelete, assocLookup]
  | cons hd tl ih =>
    obtain ⟨k₀, v₀⟩ := hd
    by_cases h : k' = k₀
    · subst h
      by_cases h₂ : k = k'
      · subst h₂
        simp [assocDelete, assocLookup, ih]
      · simp [assocDelete, assocLookup, h₂, ih]
    · by_cases h₂ : k = k₀
      · subst h₂
        simp [assocDelete, assocLookup, h, Ne.symm h]
      · simp [assocDelete, assocLookup, h, h₂, ih]

theorem jsTrim_eq_empty_iff (q : String) : jsTrim q = "" ↔ trimChars q.toList = [] := by
  constructor
  · intro h
    have h2 := congrArg String.data h
    simpa [jsTrim] using h2
  · intro h
    show String.mk (trimChars q.toList) = ""
    rw [h]

theorem strTruthy_ok_ne {s : Option String} {k : String}
    (h : strTruthy s = some k) : k ≠ "" := by
  cases s with
  | none => simp [strTruthy] at h
  | some v =>
    by_cases hv : v = ""
    · simp [strTruthy, hv] at h
    · simp [strTruthy, hv] at h
      subst h
      exact hv

theorem jsOr_of_truthy {v : Json} (d : Json) (h : v.truthy = true) : jsOr v d = v := by
  simp [jsOr, h]

theorem propOr_truthy (o : Json) (k : String) (d : Json) (h : d.truthy = true) :
    (propOr o k d).truthy = true := by
  cases o with
  | obj f =>
    cases hl : assocLookup f k with
    | none => simpa [propOr, hl] using h
    | some v =>
      by_cases hv : v.truthy = true
      · simp [propOr, hl, jsOr, hv]
      · simpa [propOr, hl, jsOr, hv] using h
  | null => simpa [propOr] using h
  | bool b => simpa [propOr] using h
  | num n => simpa [propOr] using h
  | str s => simpa [propOr] using h
  | arr xs => simpa [propOr] using h

theorem newQverisEntry_obj3 (C A E : Json) (k : String) :
    newQverisEntry (.obj [("command", C), ("args", A), ("env", E)]) k =
      .obj [("command", jsOr C (.str "npx")), ("args", jsOr A mcpDefaultArgs),
            ("env", .obj (assocSet (spreadPairs (jsOr E (.obj [])))
              "QVERIS_API_KEY" (.str k)))] := rfl

theorem newQverisEntry_idem (e : Json) (k : String) :
    newQverisEntry (newQverisEntry e k) k = newQverisEntry e k := by
  have hcmd := propOr_truthy e "command" (Json.str "npx") rfl
  have hargs := propOr_truthy e "args" mcpDefaultArgs rfl
  have h1 : newQverisEntry e k = Json.obj
      [("command", propOr e "command" (.str "npx")),
       ("args", propOr e "args" mcpDefaultArgs),
       ("env", .obj (assocSet (spreadPairs (propOr e "env" (.obj [])))
         "QVERIS_API_KEY" (.str k)))] := rfl
  rw [h1, newQverisEntry_obj3, jsOr_of_truthy _ hcmd, jsOr_of_truthy _ hargs]
  simp only [jsOr, Json.truthy, if_true]
  simp only [spreadPairs]
  rw [assocSet_set_same]

theorem writeMcpObj_second_call (fields msf : List (String × Json)) (e0 : Json)
    (k : String) :
    writeMcpObj
      (assocSet fields "mcpServers"
        (.obj (assocSet msf "qveris" (newQverisEntry e0 k)))) k =
    assocSet fields "mcpServers"
      (.obj (assocSet msf "qveris" (newQverisEntry e0 k))) := by
  have hlk : assocLookup
      (assocSet fields "mcpServers"
        (.obj (assocSet msf "qveris" (newQverisEntry e0 k)))) "mcpServers"
      = some (.obj (assocSet msf "qveris" (newQverisEntry e0 k))) :=
    assocLookup_set_self _ _ _
  have h2 : assocLookup (assocSet msf "qveris" (newQverisEntry e0 k)) "qveris"
      = some (newQverisEntry e0 k) :=
    assocLookup_set_self _ _ _
  have h3 : (newQverisEntry e0 k).truthy = true := rfl
  unfold writeMcpObj
  rw [hlk]
  simp only [Option.getD_some]
  rw [h2]
  simp only [Option.getD_some]
  rw [jsOr_of_truthy _ h3, newQverisEntry_idem, assocSet_set_same, assocSet_set_same]

theorem writeMcpObj_idem (fields : List (String × Json)) (k : String) :
    writeMcpObj (writeMcpObj fields k) k = writeMcpObj fields k := by
  cases hms : (assocLookup fields "mcpServers").getD Json.null with
  | arr xs =>
    have hinner : writeMcpObj fields k = fields := by
      unfold writeMcpObj
      rw [hms]
    rw [hinner]
    exact hinner
  | obj msf =>
    have hinner : writeMcpObj fields k =
        assocSet fields "mcpServers"
          (.obj (assocSet msf "qveris"
            (newQverisEntry
              (jsOr ((assocLookup msf "qveris").getD Json.null) (.obj [])) k))) := by
      unfold writeMcpObj
      rw [hms]
    rw [hinner]
    exact writeMcpObj_second_call fields msf _ k
  | null =>
    have hinner : writeMcpObj fields k =
        assocSet fields "mcpServers"
          (.obj (assocSet [] "qveris" (newQverisEntry (.obj []) k))) := by
      unfold writeMcpObj
      rw [hms]
    rw [hinner]
    exact writeMcpObj_second_call fields [] _ k
  | bool b =>
    have hinner : writeMcpObj fields k =
        assocSet fields "mcpServers"
          (.obj (assocSet [] "qveris" (newQverisEntry (.obj []) k))) := by
      unfold writeMcpObj
      rw [hms]
    rw [hinner]
    exact writeMcpObj_second_call fields [] _ k
  | num n =>
    have hinner : writeMcpObj fields k =
        assocSet fields "mcpServers"
          (.obj (assocSet [] "qveris" (newQverisEntry (.obj []) k))) := by
      unfold writeMcpObj
      rw [hms]
    rw [hinner]
    exact writeMcpObj_second_call fields [] _ k
  | str s =>
    have hinner : writeMcpObj fields k =
        assocSet fields "mcpServers"
          (.obj (assocSet [] "qveris" (newQverisEntry (.obj []) k))) := by
      unfold writeMcpObj
      rw [hms]
    rw [hinner]
    exact writeMcpObj_second_call fields [] _ k

theorem writeMcpObj_obj_case (fields m : List (String × Json)) (apiKey : String)
    (hm : assocLookup fields "mcpServers" = some (.obj m)) :
    writeMcpObj fields apiKey =
      assocSet fields "mcpServers"
        (.obj (assocSet m "qveris"
          (newQverisEntry
            (jsOr ((assocLookup m "qveris").getD Json.null) (.obj [])) apiKey))) := by
  have hms : (assocLookup fields "mcpServers").getD Json.null = .obj m := by
    rw [hm]
    rfl
  unfold writeMcpObj
  rw [hms]

theorem createFreshKey_ok_ne (env : RemoteEnv) (k : String)
    (h : createFreshKey env = .ok k) : k ≠ "" := by
  unfold createFreshKey at h
  cases hc : env.createResp with
  | error e =>
    rw [hc] at h
    dsimp only at h
    exact absurd h (by simp)
  | ok c =>
    rw [hc] at h
    dsimp only at h
    by_cases hs : c.status = some "success"
    · rw [if_pos hs] at h
      cases ht : strTruthy c.apiKey with
      | none =>
        rw [ht] at h
        exact absurd h (by simp)
      | some v =>
        rw [ht] at h
        dsimp only at h
        have hkv : v = k := by simpa using h
        subst hkv
        exact strTruthy_ok_ne ht
    · rw [if_neg hs] at h
      exact absurd h (by simp)

/-! ### The claims. -/

/-- Claim C1: for every API key resolution with a bearer token,
`obtainApiKey` follows the fallback chain — whenever listing fails,
returns a non-success envelope, a non-array or an empty list, or the
full-key fetch fails or yields no `api_key`, resolution is exactly the
creation step, which names the new key `<prefix>-<epoch-millis>`; the
resolution throws only when that creation step fails, and every success
returns a non-empty key string. -/
theorem claim_C1 (env : RemoteEnv) :
    (fallbackCondition env = true → obtainApiKey env = createFreshKey env) ∧
    createKeyName env = env.apiKeyName ++ "-" ++ toString env.nowMillis ∧
    (obtainApiKey env = .error () → createFreshKey env = .error ()) ∧
    (∀ k, obtainApiKey env = .ok k → k ≠ "") := by
  have master :
      (fallbackCondition env = true ∧ obtainApiKey env = createFreshKey env) ∨
      (∃ k, fallbackCondition env = false ∧ obtainApiKey env = .ok k ∧ k ≠ "") := by
    unfold fallbackCondition obtainApiKey
    cases hl : env.listResp with
    | error e => exact Or.inl ⟨rfl, rfl⟩
    | ok l =>
      dsimp only
      by_cases hs : l.status = some "success"
      · simp only [if_pos hs]
        cases hk : l.apiKeys with
        | none => exact Or.inl ⟨rfl, rfl⟩
        | some keys =>
          dsimp only
          by_cases he : keys.isEmpty
          · simp only [if_pos he]
            exact Or.inl ⟨by trivial, by trivial⟩
          · simp only [if_neg he]
            cases hf : env.fullKeyResp with
            | error e => exact Or.inl ⟨rfl, rfl⟩
            | ok fk =>
              dsimp only
              by_cases hfs : fk.status = some "success"
              · simp only [if_pos hfs]
                cases ht : strTruthy fk.apiKey with
                | none =>
                  refine Or.inl ⟨?_, rfl⟩
                  simp [hfs, ht]
                | some v =>
                  refine Or.inr ⟨v, ?_, rfl, strTruthy_ok_ne ht⟩
                  simp [hfs, ht]
              · simp only [if_neg hfs]
                refine Or.inl ⟨?_, by trivial⟩
                simp [hfs]
      · simp only [if_neg hs]
        exact Or.inl ⟨by trivial, by trivial⟩
  refine ⟨?_, rfl, ?_, ?_⟩
  · intro hf
    rcases master with ⟨-, h⟩ | ⟨k, hf2, -, -⟩
    · exact h
    · rw [hf] at hf2
      exact absurd hf2 (by simp)
  · intro herr
    rcases master with ⟨-, h⟩ | ⟨k, -, hok, -⟩
    · rw [h] at herr
      exact herr
    · rw [hok] at herr
      exact absurd herr (by simp)
  · intro k hok
    rcases master with ⟨-, h⟩ | ⟨k2, -, hok2, hne⟩
    · rw [h] at hok
      exact createFreshKey_ok_ne env k hok
    · rw [hok2] at hok
      have hk2 : k2 = k := by simpa using hok
      subst hk2
      exact hne

/-- Witness for C1 at an environment whose key listing fails while the
creation call succeeds with key `K-created`. -/
theorem claim_C1_witness :
    fallbackCondition envListFailsW = true ∧
    obtainApiKey envListFailsW = createFreshKey envListFailsW ∧
    obtainApiKey envListFailsW = .ok "K-created" ∧
    createKeyName envListFailsW = "vscode-1700000000000" ∧
    ("K-created" : String) ≠ "" :=
  ⟨rfl, (claim_C1 envListFailsW).1 rfl, rfl,
   (claim_C1 envListFailsW).2.1,
   (claim_C1 envListFailsW).2.2.2 "K-created" rfl⟩

/-- Claim C2 (amended): classification as a tool identifier holds exactly
when the trimmed query contains no space character and splits on the dot
into at least four segments each of which is non-blank after trimming;
`"a.b.c.d"` is a tool identifier and `"a.b.c"` is free text.  (The claim
as frozen says any whitespace anywhere forces free text; the code trims
first and only checks for the space character, see the counterexample.) -/
theorem claim_C2_amended :
    (∀ q : String, isToolId q = true ↔
      ((trimChars q.toList).contains ' ' = false ∧
       4 ≤ (splitOnChar '.' (trimChars q.toList)).length ∧
       ∀ p ∈ splitOnChar '.' (trimChars q.toList), trimChars p ≠ [])) ∧
    isToolId "a.b.c.d" = true ∧ isToolId "a.b.c" = false := by
  refine ⟨?_, by decide, by decide⟩
  intro q
  unfold isToolId
  by_cases h0 : (decide (q = "") || decide (jsTrim q = "")) = true
  · rw [if_pos h0]
    have h1 : trimChars q.toList = [] := by
      rcases Bool.or_eq_true _ _ |>.mp h0 with h | h
      · have hq : q = "" := of_decide_eq_true h
        rw [hq]
        rfl
      · exact (jsTrim_eq_empty_iff q).mp (of_decide_eq_true h)
    constructor
    · intro h
      exact absurd h (by simp)
    · rintro ⟨-, hlen, -⟩
      rw [h1] at hlen
      simp [splitOnChar] at hlen
  · rw [if_neg h0]
    by_cases h2 : (trimChars q.toList).contains ' ' = true
    · rw [if_pos h2]
      constructor
      · intro h
        exact absurd h (by simp)
      · rintro ⟨hc, -, -⟩
        rw [h2] at hc
        exact absurd hc (by simp)
    · rw [if_neg h2]
      have hc : (trimChars q.toList).contains ' ' = false := by
        simpa using h2
      constructor
      · intro h
        rw [Bool.and_eq_true] at h
        obtain ⟨hlen, hall⟩ := h
        refine ⟨hc, by simpa using hlen, ?_⟩
        intro p hp
        rw [List.all_eq_true] at hall
        have hpq := hall p hp
        rw [Bool.and_eq_true] at hpq
        intro hte
        have h2s := hpq.2
        rw [hte] at h2s
        simp at h2s
      · rintro ⟨-, hlen, hall⟩
        rw [Bool.and_eq_true]
        refine ⟨by simpa using hlen, ?_⟩
        rw [List.all_eq_true]
        intro p hp
        have hte := hall p hp
        have hpe : p ≠ [] := by
          intro hp0
          exact hte (by rw [hp0]; rfl)
        rw [Bool.and_eq_true]
        constructor
        · simpa using hpe
        · simpa using hte

/-- Counterexample to C2 as frozen: the query `" a.b.c.d"` contains a
whitespace character, yet the code trims it away and classifies the query
as a tool identifier rather than free text. -/
theorem claim_C2_counterexample :
    isToolId " a.b.c.d" = true ∧
    (" a.b.c.d").toList.any isJsWhitespaceChar = true := by
  refine ⟨by decide, by decide⟩

/-- Witness for C2 at the query `"a.b.c.d"`. -/
theorem claim_C2_witness :
    (trimChars "a.b.c.d".toList).contains ' ' = false ∧
    4 ≤ (splitOnChar '.' (trimChars "a.b.c.d".toList)).length ∧
    ∀ p ∈ splitOnChar '.' (trimChars "a.b.c.d".toList), trimChars p ≠ [] :=
  (claim_C2_amended.1 "a.b.c.d").mp (by decide)

/-- Claim C3 (amended): `writeMcpConfigFile` preserves every top-level key
other than `mcpServers`, every server entry other than `qveris`, and every
environment variable other than `QVERIS_API_KEY` under the qveris entry,
and overwrites only `QVERIS_API_KEY`; `command`/`args` keep their previous
value when it is truthy and are filled with the defaults `"npx"` and
`["@qverisai/sdk"]` when previously absent or falsy.  (The claim as
frozen says defaults are filled only when absent; a present falsy value
such as the empty string is also replaced, see the counterexample.) -/
theorem claim_C3_amended (fields : List (String × Json)) (apiKey : String) :
    (∀ k, k ≠ "mcpServers" →
      assocLookup (writeMcpObj fields apiKey) k = assocLookup fields k) ∧
    (∀ m s, assocLookup fields "mcpServers" = some (.obj m) → s ≠ "qveris" →
      ∃ m2, assocLookup (writeMcpObj fields apiKey) "mcpServers" = some (.obj m2) ∧
        assocLookup m2 s = assocLookup m s) ∧
    (∀ m q, assocLookup fields "mcpServers" = some (.obj m) →
        assocLookup m "qveris" = some (.obj q) →
      ∃ m2 q2,
        assocLookup (writeMcpObj fields apiKey) "mcpServers" = some (.obj m2) ∧
        assocLookup m2 "qveris" = some (.obj q2) ∧
        (∀ e, assocLookup q "env" = some (.obj e) →
          ∃ e2, assocLookup q2 "env" = some (.obj e2) ∧
            assocLookup e2 "QVERIS_API_KEY" = some (.str apiKey) ∧
            ∀ v, v ≠ "QVERIS_API_KEY" → assocLookup e2 v = assocLookup e v) ∧
        (∀ c, assocLookup q "command" = some c → c.truthy = true →
          assocLookup q2 "command" = some c) ∧
        ((assocLookup q "command" = none ∨
            ∃ c, assocLookup q "command" = some c ∧ c.truthy = false) →
          assocLookup q2 "command" = some (.str "npx")) ∧
        (∀ a, assocLookup q "args" = some a → a.truthy = true →
          assocLookup q2 "args" = some a) ∧
        ((assocLookup q "args" = none ∨
            ∃ a, assocLookup q "args" = some a ∧ a.truthy = false) →
          assocLookup q2 "args" = some mcpDefaultArgs)) := by
  refine ⟨?_, ?_, ?_⟩
  · intro k hk
    cases hms : (assocLookup fields "mcpServers").getD Json.null with
    | arr xs =>
      have hinner : writeMcpObj fields apiKey = fields := by
        unfold writeMcpObj
        rw [hms]
      rw [hinner]
    | obj msf =>
      have hinner : writeMcpObj fields apiKey = assocSet fields "mcpServers"
          (.obj (assocSet msf "qveris"
            (newQverisEntry
              (jsOr ((assocLookup msf "qveris").getD Json.null) (.obj [])) apiKey))) := by
        unfold writeMcpObj
        rw [hms]
      rw [hinner]
      exact assocLookup_set_ne _ _ _ _ hk
    | null =>
      have hinner : writeMcpObj fields apiKey = assocSet fields "mcpServers"
          (.obj (assocSet [] "qveris" (newQverisEntry (.obj []) apiKey))) := by
        unfold writeMcpObj
        rw [hms]
      rw [hinner]
      exact assocLookup_set_ne _ _ _ _ hk
    | bool b =>
      have hinner : writeMcpObj fields apiKey = assocSet fields "mcpServers"
          (.obj (assocSet [] "qveris" (newQverisEntry (.obj []) apiKey))) := by
        unfold writeMcpObj
        rw [hms]
      rw [hinner]
      exact assocLookup_set_ne _ _ _ _ hk
    | num n =>
      have hinner : writeMcpObj fields apiKey = assocSet fields "mcpServers"
          (.obj (assocSet [] "qveris" (newQverisEntry (.obj []) apiKey))) := by
        unfold writeMcpObj
        rw [hms]
      rw [hinner]
      exact assocLookup_set_ne _ _ _ _ hk
    | str s =>
      have hinner : writeMcpObj fields apiKey = assocSet fields "mcpServers"
          (.obj (assocSet [] "qveris" (newQverisEntry (.obj []) apiKey))) := by
        unfold writeMcpObj
        rw [hms]
      rw [hinner]
      exact assocLookup_set_ne _ _ _ _ hk
  · intro m s hm hs
    rw [writeMcpObj_obj_case fields m apiKey hm]
    exact ⟨_, assocLookup_set_self _ _ _, assocLookup_set_ne _ _ _ _ hs⟩
  · intro m q hm hq
    rw [writeMcpObj_obj_case fields m apiKey hm]
    have hex : jsOr ((assocLookup m "qveris").getD Json.null) (.obj []) = .obj q := by
      rw [hq]
      rfl
    rw [hex]
    refine ⟨assocSet m "qveris" (newQverisEntry (.obj q) apiKey),
      [("command", propOr (.obj q) "command" (.str "npx")),
       ("args", propOr (.obj q) "args" mcpDefaultArgs),
       ("env", .obj (assocSet (spreadPairs (propOr (.obj q) "env" (.obj [])))
         "QVERIS_API_KEY" (.str apiKey)))],
      assocLookup_set_self _ _ _, assocLookup_set_self _ _ _, ?_, ?_, ?_, ?_, ?_⟩
    · intro e he
      have henv : propOr (.obj q) "env" (.obj []) = .obj e := by
        simp [propOr, he, jsOr, Json.truthy]
      refine ⟨assocSet e "QVERIS_API_KEY" (.str apiKey), ?_, ?_, ?_⟩
      · rw [show assocLookup
            [("command", propOr (.obj q) "command" (Json.str "npx")),
             ("args", propOr (.obj q) "args" mcpDefaultArgs),
             ("env", Json.obj (assocSet (spreadPairs (propOr (.obj q) "env" (.obj [])))
               "QVERIS_API_KEY" (.str apiKey)))] "env" =
            some (Json.obj (assocSet (spreadPairs (propOr (.obj q) "env" (.obj [])))
              "QVERIS_API_KEY" (.str apiKey))) from rfl]
        rw [henv]
        rfl
      · exact assocLookup_set_self _ _ _
      · intro v hv
        exact assocLookup_set_ne _ _ _ _ hv
    · intro c hcq hct
      have hpc : propOr (.obj q) "command" (.str "npx") = c := by
        simp [propOr, hcq, jsOr, hct]
      rw [show assocLookup
          [("command", propOr (.obj q) "command" (Json.str "npx")),
           ("args", propOr (.obj q) "args" mcpDefaultArgs),
           ("env", Json.obj (assocSet (spreadPairs (propOr (.obj q) "env" (.obj [])))
             "QVERIS_API_KEY" (.str apiKey)))] "command" =
          some (propOr (.obj q) "command" (Json.str "npx")) from rfl]
      rw [hpc]
    · intro hcase
      have hpc : propOr (.obj q) "command" (.str "npx") = .str "npx" := by
        rcases hcase with h | ⟨c, hcq, hcf⟩
        · simp [propOr, h]
        · simp [propOr, hcq, jsOr, hcf]
      rw [show assocLookup
          [("command", propOr (.obj q) "command" (Json.str "npx")),
           ("args", propOr (.obj q) "args" mcpDefaultArgs),
           ("env", Json.obj (assocSet (spreadPairs (propOr (.obj q) "env" (.obj [])))
             "QVERIS_API_KEY" (.str apiKey)))] "command" =
          some (propOr (.obj q) "command" (Json.str "npx")) from rfl]
      rw [hpc]
    · intro a haq hat
      have hpa : propOr (.obj q) "args" mcpDefaultArgs = a := by
        simp [propOr, haq, jsOr, hat]
      rw [show assocLookup
          [("command", propOr (.obj q) "command" (Json.str "npx")),
           ("args", propOr (.obj q) "args" mcpDefaultArgs),
           ("env", Json.obj (assocSet (spreadPairs (propOr (.obj q) "env" (.obj [])))
             "QVERIS_API_KEY" (.str apiKey)))] "args" =
          some (propOr (.obj q) "args" mcpDefaultArgs) from rfl]
      rw [hpa]
    · intro hcase
      have hpa : propOr (.obj q) "args" mcpDefaultArgs = mcpDefaultArgs := by
        rcases hcase with h | ⟨a, haq, haf⟩
        · simp [propOr, h]
        · simp [propOr, haq, jsOr, haf]
      rw [show assocLookup
          [("command", propOr (.obj q) "command" (Json.str "npx")),
           ("args", propOr (.obj q) "args" mcpDefaultArgs),
           ("env", Json.obj (assocSet (spreadPairs (propOr (.obj q) "env" (.obj [])))
             "QVERIS_API_KEY" (.str apiKey)))] "args" =
          some (propOr (.obj q) "args" mcpDefaultArgs) from rfl]
      rw [hpa]

/-- Counterexample to C3 as frozen: with a present but empty `command`
the writer replaces it by the default `"npx"`, so defaults are not filled
only when the field was previously absent. -/
theorem claim_C3_counterexample :
    assocLookup [("command", Json.str "")] "command" = some (.str "") ∧
    writeMcpObj [("mcpServers", .obj [("qveris", .obj [("command", .str "")])])] "K" =
      [("mcpServers", .obj [("qveris", .obj
        [("command", .str "npx"), ("args", mcpDefaultArgs),
         ("env", .obj [("QVERIS_API_KEY", .str "K")])])])] ∧
    Json.str "npx" ≠ Json.str "" := by
  refine ⟨rfl, rfl, by simp⟩

/-- Witness for C3 at a document with an unrelated top-level key, an
unrelated server entry, a truthy command and an unrelated env var. -/
theorem claim_C3_witness :
    (assocLookup (writeMcpObj mcpFieldsW "K") "keep" = assocLookup mcpFieldsW "keep") ∧
    (∃ m2, assocLookup (writeMcpObj mcpFieldsW "K") "mcpServers" = some (.obj m2) ∧
       assocLookup m2 "other" = assocLookup mcpServersW "other") ∧
    (∃ m2 q2,
       assocLookup (writeMcpObj mcpFieldsW "K") "mcpServers" = some (.obj m2) ∧
       assocLookup m2 "qveris" = some (.obj q2) ∧
       (∀ e, assocLookup qverisW "env" = some (.obj e) →
         ∃ e2, assocLookup q2 "env" = some (.obj e2) ∧
           assocLookup e2 "QVERIS_API_KEY" = some (.str "K") ∧
           ∀ v, v ≠ "QVERIS_API_KEY" → assocLookup e2 v = assocLookup e v) ∧
       (∀ c, assocLookup qverisW "command" = some c → c.truthy = true →
         assocLookup q2 "command" = some c) ∧
       ((assocLookup qverisW "command" = none ∨
           ∃ c, assocLookup qverisW "command" = some c ∧ c.truthy = false) →
         assocLookup q2 "command" = some (.str "npx")) ∧
       (∀ a, assocLookup qverisW "args" = some a → a.truthy = true →
         assocLookup q2 "args" = some a) ∧
       ((assocLookup qverisW "args" = none ∨
           ∃ a, assocLookup qverisW "args" = some a ∧ a.truthy = false) →
         assocLookup q2 "args" = some mcpDefaultArgs)) :=
  ⟨(claim_C3_amended mcpFieldsW "K").1 "keep" (by decide),
   (claim_C3_amended mcpFieldsW "K").2.1 mcpServersW "other" rfl (by decide),
   (claim_C3_amended mcpFieldsW "K").2.2 mcpServersW qverisW rfl rfl⟩

/-- Claim C4: the MCP config writer is idempotent — for every initial file
content (a missing or unparsable file included) and every API key, the
file content after a second call equals the content after the first. -/
theorem claim_C4 (c : Option Json) (apiKey : String) :
    mcpFileAfter (mcpFileAfter c apiKey) apiKey = mcpFileAfter c apiKey := by
  cases c with
  | none =>
    have h1 : mcpFileAfter none apiKey = some (.obj (writeMcpObj [] apiKey)) := rfl
    rw [h1]
    have h2 : mcpFileAfter (some (.obj (writeMcpObj [] apiKey))) apiKey
        = some (.obj (writeMcpObj (writeMcpObj [] apiKey) apiKey)) := rfl
    rw [h2, writeMcpObj_idem]
  | some j =>
    cases j with
    | obj f =>
      have h1 : mcpFileAfter (some (.obj f)) apiKey
          = some (.obj (writeMcpObj f apiKey)) := rfl
      rw [h1]
      have h2 : mcpFileAfter (some (.obj (writeMcpObj f apiKey))) apiKey
          = some (.obj (writeMcpObj (writeMcpObj f apiKey) apiKey)) := rfl
      rw [h2, writeMcpObj_idem]
    | arr xs => rfl
    | null => rfl
    | bool b => rfl
    | num n => rfl
    | str s => rfl

/-- Claim C5 (amended): the MCP config writer targets exactly one path —
the user-home `.cursor/mcp.json` when running inside Cursor or when no
workspace folder is open, and the workspace `.vscode/mcp.json` when
running in the non-Cursor editor with an open workspace.  (The claim as
frozen says the user-home path is always included; in the non-Cursor
workspace case it is not, see the counterexample.) -/
theorem claim_C5_amended (isCursor : Bool) (home : String) (ws : Option String) :
    (isCursor = true → getMcpConfigPaths isCursor home ws = [homeMcpPath home]) ∧
    (isCursor = false → ws = none → getMcpConfigPaths isCursor home ws = [homeMcpPath home]) ∧
    (∀ w, isCursor = false → ws = some w →
      getMcpConfigPaths isCursor home ws = [workspaceMcpPath w]) := by
  refine ⟨fun h => by simp [getMcpConfigPaths, h],
    fun h hw => by simp [getMcpConfigPaths, h, hw],
    fun w h hw => by simp [getMcpConfigPaths, h, hw]⟩

/-- Counterexample to C5 as frozen: in the non-Cursor editor with an open
workspace the target list holds only the workspace path; the fixed
user-home path is absent. -/
theorem claim_C5_counterexample :
    getMcpConfigPaths false "/home/u" (some "/ws") = ["/ws/.vscode/mcp.json"] ∧
    "/home/u/.cursor/mcp.json" ∉ getMcpConfigPaths false "/home/u" (some "/ws") := by
  refine ⟨by decide, by decide⟩

/-- Witness for C5 in the non-Cursor editor with an open workspace. -/
theorem claim_C5_witness :
    getMcpConfigPaths false "/h" (some "/w") = [workspaceMcpPath "/w"] :=
  (claim_C5_amended false "/h" (some "/w")).2.2 "/w" rfl rfl

/-- Claim C6: login persistence is all-or-nothing — when the email or
password is blank or any step of `performLogin` (login POST, token
extraction, profile lookup, API key resolution) fails, `handleLogin`
leaves the entire extension state (secret slots, plain-state slots and
MCP config files) exactly as it was. -/
theorem claim_C6 (isCursor : Bool) (env : RemoteEnv) (home : String)
    (ws : Option String) (st : ExtState) (email password : String)
    (h : email = "" ∨ password = "" ∨ performLogin env email = .error ()) :
    handleLogin isCursor env home ws st email password = st := by
  unfold handleLogin
  rcases h with h | h | h
  · simp [h]
  · simp [h]
  · by_cases he : email = ""
    · simp [he]
    · by_cases hp : password = ""
      · simp [he, hp]
      · simp [he, hp, h]

/-- Witness for C6 at an environment whose login call fails. -/
theorem claim_C6_witness :
    handleLogin false envFailW "/h" none stW "a@b.com" "pw" = stW :=
  claim_C6 false envFailW "/h" none stW "a@b.com" "pw" (Or.inr (Or.inr rfl))

/-- Claim C7 (amended): the free-text request body carries `query`, the
limit 10, the freshly generated `search_id` and the stored `session_id`;
the tool-identifier request body carries the single-element `tool_ids`
list and the `session_id` but no `search_id` field.  (The claim as frozen
says both bodies carry the fresh correlation identifier; the by-ids body
does not, see the counterexample.) -/
theorem claim_C7_amended (baseUrl query sessionId freshId : String) :
    (isToolId (jsTrim query) = true →
      (buildSearchRequest baseUrl query sessionId freshId).1 =
        baseUrl ++ "/api/v1/tools/by-ids" ∧
      jsonField (buildSearchRequest baseUrl query sessionId freshId).2 "tool_ids" =
        some (.arr [.str (jsTrim query)]) ∧
      jsonField (buildSearchRequest baseUrl query sessionId freshId).2 "session_id" =
        some (.str sessionId) ∧
      jsonField (buildSearchRequest baseUrl query sessionId freshId).2 "search_id" =
        none) ∧
    (isToolId (jsTrim query) = false →
      (buildSearchRequest baseUrl query sessionId freshId).1 =
        baseUrl ++ "/api/v1/search" ∧
      jsonField (buildSearchRequest baseUrl query sessionId freshId).2 "query" =
        some (.str (jsTrim query)) ∧
      jsonField (buildSearchRequest baseUrl query sessionId freshId).2 "limit" =
        some (.num 10) ∧
      jsonField (buildSearchRequest baseUrl query sessionId freshId).2 "search_id" =
        some (.str freshId) ∧
      jsonField (buildSearchRequest baseUrl query sessionId freshId).2 "session_id" =
        some (.str sessionId)) := by
  constructor
  · intro h
    simp [buildSearchRequest, h, jsonField, assocLookup]
  · intro h
    simp [buildSearchRequest, h, jsonField, assocLookup]

/-- Counterexample to C7 as frozen: for the tool-identifier query
`"a.b.c.d"` the dispatched request body holds only `tool_ids` and
`session_id` — it carries no `search_id` field at all. -/
theorem claim_C7_counterexample :
    isToolId (jsTrim "a.b.c.d") = true ∧
    (buildSearchRequest "https://qveris.ai" "a.b.c.d" "sess-1" "fresh-1").2 =
      .obj [("tool_ids", .arr [.str "a.b.c.d"]), ("session_id", .str "sess-1")] ∧
    jsonField (buildSearchRequest "https://qveris.ai" "a.b.c.d" "sess-1" "fresh-1").2
      "search_id" = none := by
  refine ⟨by decide, rfl, rfl⟩

/-- Witness for C7 at one tool-identifier query and one free-text query. -/
theorem claim_C7_witness :
    ((buildSearchRequest "https://qveris.ai" "a.b.c.d" "s" "f").1 =
      "https://qveris.ai" ++ "/api/v1/tools/by-ids" ∧
     jsonField (buildSearchRequest "https://qveris.ai" "a.b.c.d" "s" "f").2
       "search_id" = none) ∧
    jsonField (buildSearchRequest "https://qveris.ai" "weather data" "s" "f").2
      "search_id" = some (.str "f") :=
  ⟨⟨((claim_C7_amended "https://qveris.ai" "a.b.c.d" "s" "f").1 (by decide)).1,
    ((claim_C7_amended "https://qveris.ai" "a.b.c.d" "s" "f").1 (by decide)).2.2.2⟩,
   ((claim_C7_amended "https://qveris.ai" "weather data" "s" "f").2 (by decide)).2.2.2.1⟩

/-- Claim C8: the search error classifier distinguishes the failure
cases with distinct user-facing messages — 401, 403, 404 and 5xx statuses
each get their fixed message; with no response, a sent request gets the
network message; and otherwise an `ECONNABORTED` code or a message
containing `"timeout"` gets the timeout message; the six messages are
pairwise distinct. -/
theorem claim_C8 (e : AxiosErr) :
    (∀ r, e.response = some r → respStatus r = 401 →
      classifySearchError e = "Authentication failed. Please sign in again.") ∧
    (∀ r, e.response = some r → respStatus r = 403 →
      classifySearchError e = "Access denied. Please check your permissions.") ∧
    (∀ r, e.response = some r → respStatus r = 404 →
      classifySearchError e =
        "Search endpoint not found. Please check the backend URL configuration.") ∧
    (∀ r, e.response = some r → 500 ≤ respStatus r →
      classifySearchError e = "Server error. Please try again later.") ∧
    (e.response = none → e.request = true →
      classifySearchError e = "Network error. Please check your internet connection.") ∧
    (e.response = none → e.request = false →
      (e.code = some "ECONNABORTED" ∨
        ∃ m, e.message = some m ∧ strIncludes m "timeout" = true) →
      classifySearchError e = "Request timeout. Please try again.") ∧
    ["Authentication failed. Please sign in again.",
     "Access denied. Please check your permissions.",
     "Search endpoint not found. Please check the backend URL configuration.",
     "Server error. Please try again later.",
     "Network error. Please check your internet connection.",
     "Request timeout. Please try again."].Nodup := by
  refine ⟨?_, ?_, ?_, ?_, ?_, ?_, by decide⟩
  · intro r hr hs
    simp [classifySearchError, hr, hs]
  · intro r hr hs
    simp [classifySearchError, hr, hs]
  · intro r hr hs
    simp [classifySearchError, hr, hs]
  · intro r hr hs
    have h1 : respStatus r ≠ 401 := by omega
    have h2 : respStatus r ≠ 403 := by omega
    have h3 : respStatus r ≠ 404 := by omega
    simp [classifySearchError, hr, h1, h2, h3, hs]
  · intro hr hq
    simp [classifySearchError, hr, hq]
  · intro hr hq hcase
    rcases hcase with hcode | ⟨m, hm, hto⟩
    · simp [classifySearchError, hr, hq, hcode]
    · simp [classifySearchError, hr, hq, hm, hto]

/-- Witness for C8 at a 401 response and at an aborted connection. -/
theorem claim_C8_witness :
    classifySearchError claim8WitnessErr = "Authentication failed. Please sign in again." ∧
    classifySearchError claim8WitnessTimeout = "Request timeout. Please try again." :=
  ⟨(claim_C8 claim8WitnessErr).1 (401, none, none, none, none) rfl rfl,
   (claim_C8 claim8WitnessTimeout).2.2.2.2.2.1 rfl rfl (Or.inl rfl)⟩

/-- Claim C9: `handleLogout` removes exactly the three namespaced secret
slots and the namespaced plain email slot; every other secret, every
other plain-state entry (session id, last search id, selected tool,
extension version) and the on-disk MCP config files are unchanged. -/
theorem claim_C9 (isCursor : Bool) (st : ExtState) (k : String) :
    assocLookup (handleLogout isCursor st).secrets k =
      (if k = secretKeyName isCursor "qverisApiKey" ∨
          k = secretKeyName isCursor "qverisAccessToken" ∨
          k = secretKeyName isCursor "qverisEmail" then none
       else assocLookup st.secrets k) ∧
    assocLookup (handleLogout isCursor st).globalState k =
      (if k = globalStateKey isCursor "qverisEmail" then none
       else assocLookup st.globalState k) ∧
    (handleLogout isCursor st).mcpFiles = st.mcpFiles := by
  refine ⟨?_, ?_, rfl⟩
  · show assocLookup
      (assocDelete (assocDelete (assocDelete st.secrets _) _) _) k = _
    rw [assocLookup_delete, assocLookup_delete, assocLookup_delete]
    by_cases h1 : k = secretKeyName isCursor "qverisApiKey" <;>
    by_cases h2 : k = secretKeyName isCursor "qverisAccessToken" <;>
    by_cases h3 : k = secretKeyName isCursor "qverisEmail" <;>
    simp [h1, h2, h3]
  · show assocLookup (assocDelete st.globalState _) k = _
    rw [assocLookup_delete]

/-- Claim C10 (amended): `maskKey` maps the empty key to the empty
string, keys of length at most 8 to the fixed mask `"••••"` — which
shares no character with the key unless the key itself contains the
bullet character — and longer keys to their first four characters, the
mask, and their last four characters.  (The claim as frozen says the
mask contains no character of the key outright; a key made of bullet
characters refutes that, see the counterexample.) -/
theorem claim_C10_amended (key : String) :
    (key = "" → maskKey key = "") ∧
    (key ≠ "" → key.length ≤ 8 →
      maskKey key = "••••" ∧
      ('•' ∉ key.toList → ∀ c ∈ (maskKey key).toList, c ∉ key.toList)) ∧
    (8 < key.length →
      maskKey key = String.mk (key.toList.take 4) ++ "••••" ++
        String.mk (key.toList.drop (key.length - 4))) := by
  refine ⟨fun h => by simp [maskKey, h], fun h1 h2 => ⟨by simp [maskKey, h1, h2], ?_⟩,
    fun h3 => ?_⟩
  · intro hb c hc
    have hm : maskKey key = "••••" := by simp [maskKey, h1, h2]
    rw [hm] at hc
    have hcb : c = '•' := by
      simpa using hc
    subst hcb
    exact hb
  · have h1 : key ≠ "" := by
      intro h0
      rw [h0] at h3
      simp at h3
    have h2 : ¬ key.length ≤ 8 := by omega
    simp [maskKey, h1, h2]

/-- Counterexample to C10 as frozen: the three-bullet key is masked as
`"••••"`, which consists of a character the key itself contains. -/
theorem claim_C10_counterexample :
    maskKey "•••" = "••••" ∧
    '•' ∈ "•••".toList ∧ '•' ∈ (maskKey "•••").toList := by
  refine ⟨by decide, by decide, by decide⟩

/-- Witness for C10 at an empty, a short and a nine-character key. -/
theorem claim_C10_witness :
    maskKey "" = "" ∧ maskKey "abcdefgh" = "••••" ∧
    maskKey "123456789" = String.mk ("123456789".toList.take 4) ++ "••••" ++
      String.mk ("123456789".toList.drop ("123456789".length - 4)) :=
  ⟨(claim_C10_amended "").1 rfl,
   ((claim_C10_amended "abcdefgh").2.1 (by decide) (by decide)).1,
   (claim_C10_amended "123456789").2.2 (by decide)⟩

end Qveris
